import Mathlib

/-!
Shallow embedding of `src/src/main/python/semafor/formats/malt_to_conll.py`
(semafor repository): the CoNLL field schema, `default_conll_token`,
`read_conll`, and `malt_to_conll`, together with theorems checking the
natural-language specification against this code.

Conventions of the embedding:
* Python strings are `String`, Python ints are `Int`; a CoNLL record field,
  which in the Python code holds either a string or an int (after the
  `int(...)` conversions in `read_conll`), is the sum type `Val`.
* Fallible code is `Except`: Python exceptions raised while building a
  record (`ValueError` from `int(...)`, `IndexError`/`TypeError` from
  indexing or from `ConllToken(*parts)` with the wrong arity) are modelled
  uniformly as a `MalformedRecordError` carrying the offending (stripped)
  line; the `TypeError` raised by `ConllToken(**defaults)` on an unknown
  keyword is modelled as a `SchemaError` carrying the unknown key.
* The generator `read_conll` is modelled as a function from the whole list
  of input lines to `Except MalformedRecordError` of the list of all
  yielded sentences.
* The external collaborators absent from `src/` (`read_malt`, WordNet's
  `get_lemma`) are parameters: `get_lemma` is passed to `read_conll` as a
  total function, and the token type produced by `read_malt` is the
  structure `MaltToken` modelled from the spec.
-/

/-- A value held in one field of a CoNLL record: the Python code stores
strings, except that `read_conll` converts `id` (always) and `head`/`phead`
(when different from `"_"`) to ints. -/
inductive Val where
  | str (s : String)
  | int (n : Int)
  deriving DecidableEq, Repr

/-- `CONLL_FIELDS`: the ordered ten-field schema of the CoNLL format, as the
module-level tuple of field names. -/
def CONLL_FIELDS : List String :=
  ["id", "form", "lemma", "cpostag", "postag", "feats", "head", "deprel",
   "phead", "pdeprel"]

/-- `ConllToken = namedtuple('ConllToken', CONLL_FIELDS)`: a record with the
ten schema fields, in schema order.  (`lemma` is a reserved word in this
development's ambient syntax, so the field is spelled `lemma'`.) -/
structure ConllToken where
  id : Val
  form : Val
  lemma' : Val
  cpostag : Val
  postag : Val
  feats : Val
  head : Val
  deprel : Val
  phead : Val
  pdeprel : Val
  deriving DecidableEq, Repr

/-- Iterating a `ConllToken` (as `namedtuple` iteration does) gives its ten
field values in schema order. -/
def conllFieldsOf (t : ConllToken) : List Val :=
  [t.id, t.form, t.lemma', t.cpostag, t.postag, t.feats, t.head, t.deprel,
   t.phead, t.pdeprel]

/-- Access a `ConllToken` field by its schema name (`none` for a name outside
the schema); spec-side accessor used to state claims about overriding. -/
def getField (t : ConllToken) (name : String) : Option Val :=
  if name = "id" then some t.id
  else if name = "form" then some t.form
  else if name = "lemma" then some t.lemma'
  else if name = "cpostag" then some t.cpostag
  else if name = "postag" then some t.postag
  else if name = "feats" then some t.feats
  else if name = "head" then some t.head
  else if name = "deprel" then some t.deprel
  else if name = "phead" then some t.phead
  else if name = "pdeprel" then some t.pdeprel
  else none

/-- The `TypeError` raised by `ConllToken(**defaults)` when an override key is
not a schema field name, carrying the unknown key. -/
structure SchemaError where
  key : String
  deriving DecidableEq, Repr

/-- The failure of `read_conll` on a malformed record line (Python raises
`ValueError`, `IndexError` or `TypeError` depending on the defect; the
embedding conflates them), carrying the offending stripped line. -/
structure MalformedRecordError where
  line : String
  deriving DecidableEq, Repr

/-- First-match lookup in an override list.  Python `**kwargs` keys are
necessarily distinct, so first-match agrees with Python's `dict.update`. -/
def ovLookup : List (String × Val) → String → Option Val
  | [], _ => none
  | kv :: rest, name => if kv.1 = name then some kv.2 else ovLookup rest name

/-- The record built by `ConllToken(**defaults)` after
`defaults = dict((name, '_') for name in CONLL_FIELDS); defaults.update(**kwargs)`:
each schema field takes its override value if present, else `'_'`. -/
def buildConllToken (overrides : List (String × Val)) : ConllToken :=
  { id := (ovLookup overrides "id").getD (Val.str "_")
    form := (ovLookup overrides "form").getD (Val.str "_")
    lemma' := (ovLookup overrides "lemma").getD (Val.str "_")
    cpostag := (ovLookup overrides "cpostag").getD (Val.str "_")
    postag := (ovLookup overrides "postag").getD (Val.str "_")
    feats := (ovLookup overrides "feats").getD (Val.str "_")
    head := (ovLookup overrides "head").getD (Val.str "_")
    deprel := (ovLookup overrides "deprel").getD (Val.str "_")
    phead := (ovLookup overrides "phead").getD (Val.str "_")
    pdeprel := (ovLookup overrides "pdeprel").getD (Val.str "_") }

/-- `default_conll_token(**kwargs)`: fills every field not named in the
overrides with `'_'`; a key outside the schema makes `ConllToken(**defaults)`
raise (modelled as `SchemaError` on the first such key). -/
def default_conll_token (overrides : List (String × Val)) :
    Except SchemaError ConllToken :=
  match overrides.find? (fun kv => !(CONLL_FIELDS.contains kv.1)) with
  | some kv => Except.error ⟨kv.1⟩
  | none => Except.ok (buildConllToken overrides)

/-- The whitespace characters removed by Python's `str.strip()`. -/
def isPyWs (c : Char) : Bool :=
  c = ' ' || c = '\t' || c = '\n' || c = '\r' || c = '\x0b' || c = '\x0c'

/-- Python's `line.strip()`: remove leading and trailing whitespace. -/
def pyStrip (s : String) : String :=
  ⟨(s.data.dropWhile isPyWs).rdropWhile isPyWs⟩

/-- Value of a decimal digit list, most significant digit first. -/
def digitsToNat (cs : List Char) : Nat :=
  cs.foldl (fun a c => a * 10 + (c.toNat - '0'.toNat)) 0

/-- Python's `int(s)` on a string: optional surrounding whitespace, optional
sign, then a nonempty run of decimal digits; anything else raises
(`none` here). -/
def pyParseInt (s : String) : Option Int :=
  match (pyStrip s).data with
  | '-' :: rest =>
      if rest ≠ [] ∧ rest.all Char.isDigit then some (-(digitsToNat rest : Int))
      else none
  | '+' :: rest =>
      if rest ≠ [] ∧ rest.all Char.isDigit then some ((digitsToNat rest : Int))
      else none
  | cs =>
      if cs ≠ [] ∧ cs.all Char.isDigit then some ((digitsToNat cs : Int))
      else none

/-- Split a character list at every tab, keeping empty segments (the
behaviour of Python's `split('\t')` on the underlying characters). -/
def pySplitTab : List Char → List (List Char)
  | [] => [[]]
  | c :: rest =>
    match pySplitTab rest with
    | [] => [[]]
    | f :: r => if c = '\t' then [] :: f :: r else (c :: f) :: r

/-- Python's `line.split('\t')`: the list of tab-separated fields, empty
fields included; the empty string splits to one empty field. -/
def pySplit (s : String) : List String :=
  (pySplitTab s.data).map (fun l => ⟨l⟩)

/-- The `head`/`phead` conversion of `read_conll`: kept as the string `'_'`
when equal to the placeholder, otherwise converted by `int(...)`. -/
def parseHeadField (s : String) : Option Val :=
  if s = "_" then some (Val.str "_") else (pyParseInt s).map Val.int

/-- The body of `read_conll`'s loop on one non-blank (already stripped) line:
split on tabs; `parts[0]` (the `id`) converted by `int(...)`; `parts[6]` and
`parts[8]` (`head`, `phead`) converted unless `'_'`; if `lookup_lemmas` and
`parts[2]` (the `lemma`) is `'_'`, replace it by `get_lemma(form, postag)`;
finally `ConllToken(*parts)`.  A wrong field count, or a failing `int(...)`,
raises (Python: `IndexError`/`TypeError`/`ValueError`; here one error value
carrying the line). -/
def parseConllLine (get_lemma : String → String → String) (lookup_lemmas : Bool)
    (line : String) : Except MalformedRecordError ConllToken :=
  let parts := pySplit line
  if parts.length = 10 then
    match pyParseInt (parts.getD 0 "") with
    | none => Except.error ⟨line⟩
    | some idN =>
      match parseHeadField (parts.getD 6 "") with
      | none => Except.error ⟨line⟩
      | some headV =>
        match parseHeadField (parts.getD 8 "") with
        | none => Except.error ⟨line⟩
        | some pheadV =>
          Except.ok
            { id := Val.int idN
              form := Val.str (parts.getD 1 "")
              lemma' := Val.str (if lookup_lemmas ∧ parts.getD 2 "" = "_"
                                 then get_lemma (parts.getD 1 "") (parts.getD 4 "")
                                 else parts.getD 2 "")
              cpostag := Val.str (parts.getD 3 "")
              postag := Val.str (parts.getD 4 "")
              feats := Val.str (parts.getD 5 "")
              head := headV
              deprel := Val.str (parts.getD 7 "")
              phead := pheadV
              pdeprel := Val.str (parts.getD 9 "") }
  else Except.error ⟨line⟩

/-- The loop of `read_conll`, with `acc` the current accumulated sentence
(`result` in the Python): each line is stripped; a blank line yields the
accumulated sentence and resets the accumulator; a non-blank line is parsed
and appended; at end of input a non-empty accumulator is yielded once more. -/
def read_conll_go (get_lemma : String → String → String) (lookup_lemmas : Bool) :
    List String → List ConllToken →
    Except MalformedRecordError (List (List ConllToken))
  | [], acc => if acc.isEmpty then Except.ok [] else Except.ok [acc]
  | line :: rest, acc =>
    let l := pyStrip line
    if l = "" then
      match read_conll_go get_lemma lookup_lemmas rest [] with
      | Except.ok ss => Except.ok (acc :: ss)
      | Except.error e => Except.error e
    else
      match parseConllLine get_lemma lookup_lemmas l with
      | Except.ok tok => read_conll_go get_lemma lookup_lemmas rest (acc ++ [tok])
      | Except.error e => Except.error e

/-- `read_conll(lines, lookup_lemmas=False)`: the sentences yielded by the
generator, sentences being separated by blank lines.  `get_lemma` is the
WordNet lookup imported by the module, passed here as a parameter. -/
def read_conll (get_lemma : String → String → String) (lookup_lemmas : Bool)
    (lines : List String) : Except MalformedRecordError (List (List ConllToken)) :=
  read_conll_go get_lemma lookup_lemmas lines []

/-- Modelled from the spec: the token record produced by the external
`read_malt` (absent from `src/`), exposing the surface form, one
part-of-speech tag, the head index and the dependency relation label. -/
structure MaltToken where
  form : String
  postag : String
  head : Int
  deprel : String
  deriving DecidableEq, Repr

/-- Rendering of one field value when joining a record with tabs: a string
field is itself, an int field prints in decimal. -/
def renderVal : Val → String
  | Val.str s => s
  | Val.int n => toString n

/-- `u'\t'.join(field for field in conll_token)`. -/
def renderConllToken (t : ConllToken) : String :=
  String.intercalate "\t" ((conllFieldsOf t).map renderVal)

/-- The record built for the `i`-th (0-based) malt token inside
`malt_to_conll`: `default_conll_token(id=unicode(i+1), form=..., cpostag=...,
postag=..., head=..., deprel=...)`. -/
def malt_conll_token (i : Nat) (token : MaltToken) : Except SchemaError ConllToken :=
  default_conll_token
    [("id", Val.str (toString (i + 1))),
     ("form", Val.str token.form),
     ("cpostag", Val.str token.postag),
     ("postag", Val.str token.postag),
     ("head", Val.int token.head),
     ("deprel", Val.str token.deprel)]

/-- `malt_to_conll(malt_tokens)`: one tab-joined line per token, lines joined
with newlines, with one trailing empty segment appended so the block ends
with a newline. -/
def malt_to_conll (malt_tokens : List MaltToken) : Except SchemaError String := do
  let toks ← malt_tokens.enum.mapM (fun p => malt_conll_token p.1 p.2)
  pure (String.intercalate "\n" (toks.map renderConllToken ++ [""]))

/-! ## Helper lemmas -/

/-- First-match lookup finds the value of a present key when keys are distinct. -/
theorem ovLookup_mem (ov : List (String × Val)) (k : String) (v : Val)
    (hnd : (ov.map Prod.fst).Nodup) (h : (k, v) ∈ ov) : ovLookup ov k = some v := by
  induction ov with
  | nil => cases h
  | cons a rest ih =>
    rcases List.mem_cons.mp h with h | h
    · rw [← h]
      simp [ovLookup]
    · have hnd' : (rest.map Prod.fst).Nodup := (List.nodup_cons.mp (by simpa using hnd)).2
      have hne : ¬ a.1 = k := by
        intro he
        exact (List.nodup_cons.mp (by simpa using hnd)).1
          (he ▸ List.mem_map_of_mem Prod.fst h)
      simp [ovLookup, hne, ih hnd' h]

/-- First-match lookup misses an absent key. -/
theorem ovLookup_not_mem (ov : List (String × Val)) (k : String)
    (h : k ∉ ov.map Prod.fst) : ovLookup ov k = none := by
  induction ov with
  | nil => rfl
  | cons a rest ih =>
    simp only [List.map_cons, List.mem_cons, not_or] at h
    have hne : ¬ a.1 = k := fun he => h.1 he.symm
    simp [ovLookup, hne, ih h.2]

/-- Each schema field of the built record is the override value if present,
else the placeholder. -/
theorem getField_build (ov : List (String × Val)) (name : String)
    (h : name ∈ CONLL_FIELDS) :
    getField (buildConllToken ov) name =
      some ((ovLookup ov name).getD (Val.str "_")) := by
  simp only [CONLL_FIELDS, List.mem_cons, List.not_mem_nil, or_false] at h
  rcases h with rfl | rfl | rfl | rfl | rfl | rfl | rfl | rfl | rfl | rfl <;> rfl

/-! ## Claims -/

/-- Claim C1: on the two-token source sequence
`[(form="Dogs", postag="NNS", head=2, deprel="nsubj"),
  (form="bark", postag="VBP", head=0, deprel="ROOT")]`,
`malt_to_conll` returns exactly the ten-fields-per-line text with 1-based ids,
the postag copied into both `cpostag` and `postag`, head and deprel copied as
supplied, and a trailing newline. -/
theorem claim_C1_malt_to_conll_example :
    malt_to_conll
      [{ form := "Dogs", postag := "NNS", head := 2, deprel := "nsubj" },
       { form := "bark", postag := "VBP", head := 0, deprel := "ROOT" }] =
    Except.ok
      "1\tDogs\t_\tNNS\tNNS\t_\t2\tnsubj\t_\t_\n2\tbark\t_\tVBP\tVBP\t_\t0\tROOT\t_\t_\n" := by
  rfl

/-- Claim C5: for every override map whose keys are all valid schema field
names (a map: keys distinct), `default_conll_token` returns a record in which
each overridden field holds its override value and every other schema field
holds the placeholder `"_"`. -/
theorem claim_C5_default_token_overrides (overrides : List (String × Val))
    (hvalid : ∀ kv ∈ overrides, kv.1 ∈ CONLL_FIELDS)
    (hnd : (overrides.map Prod.fst).Nodup) :
    ∃ tok, default_conll_token overrides = Except.ok tok ∧
      (∀ kv ∈ overrides, getField tok kv.1 = some kv.2) ∧
      (∀ name ∈ CONLL_FIELDS, name ∉ overrides.map Prod.fst →
        getField tok name = some (Val.str "_")) := by
  have hfind : overrides.find? (fun kv => !(CONLL_FIELDS.contains kv.1)) = none := by
    rw [List.find?_eq_none]
    intro kv hm
    simpa using hvalid kv hm
  refine ⟨buildConllToken overrides, ?_, ?_, ?_⟩
  · unfold default_conll_token
    rw [hfind]
  · intro kv hm
    rw [getField_build _ _ (hvalid kv hm),
      ovLookup_mem overrides kv.1 kv.2 hnd (by simpa using hm)]
    rfl
  · intro name hmem hnot
    rw [getField_build _ _ hmem, ovLookup_not_mem _ _ hnot]
    rfl

/-- Witness for C5 at the concrete override map `[("form", "x")]`. -/
theorem claim_C5_witness :
    ∃ tok, default_conll_token [("form", Val.str "x")] = Except.ok tok ∧
      (∀ kv ∈ [("form", Val.str "x")], getField tok kv.1 = some kv.2) ∧
      (∀ name ∈ CONLL_FIELDS, name ∉ [("form", Val.str "x")].map Prod.fst →
        getField tok name = some (Val.str "_")) :=
  claim_C5_default_token_overrides [("form", Val.str "x")] (by decide) (by decide)

/-- Claim C6: `default_conll_token` fails with a `SchemaError` exactly when
some override key is not a schema field name, and returns a record when all
keys are valid. -/
theorem claim_C6_default_token_schema_error (overrides : List (String × Val)) :
    ((∃ kv ∈ overrides, kv.1 ∉ CONLL_FIELDS) →
      ∃ e : SchemaError, default_conll_token overrides = Except.error e) ∧
    ((∀ kv ∈ overrides, kv.1 ∈ CONLL_FIELDS) →
      ∃ tok, default_conll_token overrides = Except.ok tok) := by
  constructor
  · rintro ⟨kv, hm, hnot⟩
    cases hfind : overrides.find? (fun kv => !(CONLL_FIELDS.contains kv.1)) with
    | none =>
      exact absurd (by simpa using List.find?_eq_none.mp hfind kv hm) hnot
    | some kv' =>
      refine ⟨⟨kv'.1⟩, ?_⟩
      unfold default_conll_token
      rw [hfind]
  · intro hvalid
    have hfind : overrides.find? (fun kv => !(CONLL_FIELDS.contains kv.1)) = none := by
      rw [List.find?_eq_none]
      intro kv hm
      simpa using hvalid kv hm
    refine ⟨buildConllToken overrides, ?_⟩
    unfold default_conll_token
    rw [hfind]

/-- Witness for C6 at the invalid override key `"bogus"`. -/
theorem claim_C6_witness :
    ∃ e : SchemaError,
      default_conll_token [("bogus", Val.str "x")] = Except.error e :=
  (claim_C6_default_token_schema_error [("bogus", Val.str "x")]).1 (by decide)

/-- Claim C8: every token record built by `malt_to_conll` (via
`malt_conll_token`) has its `lemma`, `feats`, `phead` and `pdeprel` fields
equal to the placeholder `"_"`, whatever the source token holds. -/
theorem claim_C8_malt_placeholder_fields (i : Nat) (token : MaltToken) :
    ∃ t, malt_conll_token i token = Except.ok t ∧
      t.lemma' = Val.str "_" ∧ t.feats = Val.str "_" ∧
      t.phead = Val.str "_" ∧ t.pdeprel = Val.str "_" :=
  ⟨_, rfl, rfl, rfl, rfl, rfl⟩

/-- `read_conll`'s loop body rejects the empty line (it cannot split into ten
fields), so a successfully parsed line is non-empty. -/
theorem parseConllLine_empty (g : String → String → String) (lk : Bool) :
    parseConllLine g lk "" = Except.error ⟨""⟩ := rfl

/-- A line that parses successfully is not the empty string. -/
theorem parseConllLine_ok_ne (g : String → String → String) (lk : Bool)
    (s : String) (t : ConllToken) (h : parseConllLine g lk s = Except.ok t) :
    ¬ s = "" := by
  intro hs
  subst hs
  rw [parseConllLine_empty] at h
  exact Except.noConfusion h

/-- Stripping the empty string gives the empty string. -/
theorem pyStrip_empty : pyStrip "" = "" := rfl

/-- Claim C2: for any three record lines that parse to tokens `ta`, `tb`,
`tc`, the input `[la, lb, "", lc, ""]` yields exactly two sentences,
`[ta, tb]` then `[tc]`: a blank line flushes the accumulated sentence and a
new empty sentence begins. -/
theorem claim_C2_segmentation (g : String → String → String) (lk : Bool)
    (la lb lc : String) (ta tb tc : ConllToken)
    (ha : parseConllLine g lk (pyStrip la) = Except.ok ta)
    (hb : parseConllLine g lk (pyStrip lb) = Except.ok tb)
    (hc : parseConllLine g lk (pyStrip lc) = Except.ok tc) :
    read_conll g lk [la, lb, "", lc, ""] = Except.ok [[ta, tb], [tc]] := by
  have hna : ¬ pyStrip la = "" := parseConllLine_ok_ne _ _ _ _ ha
  have hnb : ¬ pyStrip lb = "" := parseConllLine_ok_ne _ _ _ _ hb
  have hnc : ¬ pyStrip lc = "" := parseConllLine_ok_ne _ _ _ _ hc
  simp [read_conll, read_conll_go, hna, hnb, hnc, ha, hb, hc, pyStrip_empty]

/-- Witness for C2 on five concrete lines. -/
theorem claim_C2_witness :
    read_conll (fun _ _ => "L") false
      ["1\ta\t_\tA\tA\t_\t0\tROOT\t_\t_",
       "2\tb\t_\tB\tB\t_\t1\tdep\t_\t_",
       "",
       "1\tc\t_\tC\tC\t_\t0\tROOT\t_\t_",
       ""] =
    Except.ok
      [[⟨Val.int 1, Val.str "a", Val.str "_", Val.str "A", Val.str "A",
         Val.str "_", Val.int 0, Val.str "ROOT", Val.str "_", Val.str "_"⟩,
        ⟨Val.int 2, Val.str "b", Val.str "_", Val.str "B", Val.str "B",
         Val.str "_", Val.int 1, Val.str "dep", Val.str "_", Val.str "_"⟩],
       [⟨Val.int 1, Val.str "c", Val.str "_", Val.str "C", Val.str "C",
         Val.str "_", Val.int 0, Val.str "ROOT", Val.str "_", Val.str "_"⟩]] :=
  claim_C2_segmentation _ _ _ _ _ _ _ _ (by rfl) (by rfl) (by rfl)

/-- Claim C3: when the remaining input consists of record lines only (no
blank line before end of input), the loop yields the final accumulated
sentence exactly once if it is non-empty, and nothing if it is empty. -/
theorem claim_C3_final_flush (g : String → String → String) (lk : Bool)
    (lines : List String) (toks : List ConllToken) (acc : List ConllToken)
    (h : List.Forall₂
      (fun l t => parseConllLine g lk (pyStrip l) = Except.ok t) lines toks) :
    read_conll_go g lk lines acc =
      Except.ok (if (acc ++ toks).isEmpty then [] else [acc ++ toks]) := by
  induction h generalizing acc with
  | nil => cases hacc : acc.isEmpty <;> simp [read_conll_go, hacc]
  | cons h1 htl ih =>
    have hna := parseConllLine_ok_ne _ _ _ _ h1
    simp [read_conll_go, hna, h1, ih, List.append_assoc]

/-- Witness for C3: two record lines and no trailing blank line yield one
sentence of size 2. -/
theorem claim_C3_witness :
    read_conll_go (fun _ _ => "L") false
      ["1\ta\t_\tA\tA\t_\t0\tROOT\t_\t_", "2\tb\t_\tB\tB\t_\t1\tdep\t_\t_"] [] =
    Except.ok
      [[(⟨Val.int 1, Val.str "a", Val.str "_", Val.str "A", Val.str "A",
          Val.str "_", Val.int 0, Val.str "ROOT", Val.str "_", Val.str "_"⟩ :
          ConllToken),
        ⟨Val.int 2, Val.str "b", Val.str "_", Val.str "B", Val.str "B",
         Val.str "_", Val.int 1, Val.str "dep", Val.str "_", Val.str "_"⟩]] := by
  have h := claim_C3_final_flush (fun _ _ => "L") false
    ["1\ta\t_\tA\tA\t_\t0\tROOT\t_\t_", "2\tb\t_\tB\tB\t_\t1\tdep\t_\t_"]
    [⟨Val.int 1, Val.str "a", Val.str "_", Val.str "A", Val.str "A",
      Val.str "_", Val.int 0, Val.str "ROOT", Val.str "_", Val.str "_"⟩,
     ⟨Val.int 2, Val.str "b", Val.str "_", Val.str "B", Val.str "B",
      Val.str "_", Val.int 1, Val.str "dep", Val.str "_", Val.str "_"⟩] []
    (List.Forall₂.cons (by rfl) (List.Forall₂.cons (by rfl) List.Forall₂.nil))
  simpa using h

/-- Claim C9: a blank line reached with an empty accumulator (at the start of
input or right after a yield) emits an empty sentence; empty sentences are
not filtered. -/
theorem claim_C9_empty_yield (g : String → String → String) (lk : Bool)
    (line : String) (rest : List String) (h : pyStrip line = "") :
    read_conll_go g lk (line :: rest) [] =
      (read_conll_go g lk rest []).map
        (fun ss => ([] : List ConllToken) :: ss) := by
  cases h2 : read_conll_go g lk rest [] <;>
    simp [read_conll_go, h, h2, Except.map]

/-- Witness for C9: two consecutive blank lines yield two empty sentences. -/
theorem claim_C9_witness :
    read_conll_go (fun _ _ => "L") false ["", ""] [] =
      (read_conll_go (fun _ _ => "L") false [""] []).map
        (fun ss => ([] : List ConllToken) :: ss) :=
  claim_C9_empty_yield (fun _ _ => "L") false "" [""] rfl

/-- If a list survives a left `dropWhile`, stripping its right end still
leaves a list that survives the left `dropWhile` (its head, when present, is
the original head). -/
theorem stripped_rdropWhile {p : Char → Bool} {l : List Char}
    (hl : l.dropWhile p = l) :
    (l.rdropWhile p).dropWhile p = l.rdropWhile p := by
  rcases hr : l.rdropWhile p with _ | ⟨c, cs⟩
  · rfl
  · have hpre := List.rdropWhile_prefix p l
    rw [hr] at hpre
    obtain ⟨t, ht⟩ := hpre
    have hlc : l = c :: (cs ++ t) := by rw [← ht]; rfl
    have hc : p c = false := by
      cases hp : p c with
      | false => rfl
      | true =>
        rw [hlc, List.dropWhile_cons_of_pos hp] at hl
        have hlen := congrArg List.length hl
        have hle := (List.dropWhile_suffix (l := cs ++ t) p).length_le
        simp only [List.length_cons] at hlen
        omega
    exact List.dropWhile_cons_of_neg (by simp [hc])

/-- Python's `strip()` is idempotent: a stripped line is unchanged by another
strip. -/
theorem pyStrip_idem (s : String) : pyStrip (pyStrip s) = pyStrip s := by
  unfold pyStrip
  congr 1
  show ((((s.data.dropWhile isPyWs).rdropWhile isPyWs).dropWhile
    isPyWs).rdropWhile isPyWs) = (s.data.dropWhile isPyWs).rdropWhile isPyWs
  rw [stripped_rdropWhile (List.dropWhile_idempotent isPyWs s.data),
    List.rdropWhile_idempotent]

/-- A string made of whitespace only strips to the empty string. -/
theorem pyStrip_ws (s : String) (h : s.data.all isPyWs = true) :
    pyStrip s = "" := by
  unfold pyStrip
  have h1 : s.data.dropWhile isPyWs = [] :=
    List.dropWhile_eq_nil_iff.mpr (by simpa [List.all_eq_true] using h)
  rw [h1]
  rfl

/-- Claim C10: each input line is stripped before any other processing — the
loop behaves identically on a line and on its stripped form, and a line made
only of whitespace characters acts as a sentence boundary (the accumulated
sentence is emitted and reset). -/
theorem claim_C10_strip_lines (g : String → String → String) (lk : Bool)
    (line : String) (rest : List String) (acc : List ConllToken) :
    read_conll_go g lk (line :: rest) acc =
      read_conll_go g lk (pyStrip line :: rest) acc ∧
    (line.data.all isPyWs = true →
      read_conll_go g lk (line :: rest) acc =
        (read_conll_go g lk rest []).map (fun ss => acc :: ss)) := by
  constructor
  · simp only [read_conll_go]
    rw [pyStrip_idem]
  · intro h
    have h0 : pyStrip line = "" := pyStrip_ws line h
    cases h2 : read_conll_go g lk rest [] <;>
      simp [read_conll_go, h0, h2, Except.map]

/-- Witness for C10: the whitespace-only line `" \t "` is a sentence
boundary. -/
theorem claim_C10_witness :
    read_conll_go (fun _ _ => "L") false [" \t "] [] =
      (read_conll_go (fun _ _ => "L") false [] []).map
        (fun ss => ([] : List ConllToken) :: ss) :=
  (claim_C10_strip_lines (fun _ _ => "L") false " \t " [] []).2 (by decide)

/-- With `lookup_lemmas=False` the parse of a line does not depend on the
lemma dictionary. -/
theorem parseConllLine_no_lookup (g g' : String → String → String)
    (line : String) :
    parseConllLine g false line = parseConllLine g' false line := by
  simp only [parseConllLine]
  by_cases hlen : (pySplit line).length = 10
  · simp only [if_pos hlen]
    rcases pyParseInt ((pySplit line).getD 0 "") with _ | n
    · rfl
    · rcases parseHeadField ((pySplit line).getD 6 "") with _ | v6
      · rfl
      · rcases parseHeadField ((pySplit line).getD 8 "") with _ | v8
        · rfl
        · simp
  · simp only [if_neg hlen]

/-- With `lookup_lemmas=False` the whole read loop does not depend on the
lemma dictionary. -/
theorem read_conll_go_no_lookup (g g' : String → String → String)
    (lines : List String) :
    ∀ acc, read_conll_go g false lines acc = read_conll_go g' false lines acc := by
  induction lines with
  | nil => intro acc; rfl
  | cons line rest ih =>
    intro acc
    simp only [read_conll_go]
    rw [parseConllLine_no_lookup g g' (pyStrip line)]
    simp only [ih]

/-- Claim C4: on a record line whose lemma field is the placeholder, with
`lookup_lemmas=True` the produced record's lemma is the dictionary value for
(form, fine-grained postag); with `lookup_lemmas=False` the placeholder is
kept and the dictionary is never consulted (the whole read is independent of
it). -/
theorem claim_C4_lemma_substitution (g g' : String → String → String)
    (line i0 f1 c3 p4 f5 h6 d7 ph8 pd9 : String)
    (hsplit : pySplit line = [i0, f1, "_", c3, p4, f5, h6, d7, ph8, pd9]) :
    (∀ tok, parseConllLine g true line = Except.ok tok →
      tok.lemma' = Val.str (g f1 p4)) ∧
    (∀ tok, parseConllLine g false line = Except.ok tok →
      tok.lemma' = Val.str "_") ∧
    (∀ lines : List String,
      read_conll g false lines = read_conll g' false lines) := by
  have hlen : (pySplit line).length = 10 := by rw [hsplit]; rfl
  have e1 : (pySplit line).getD 1 "" = f1 := by rw [hsplit]; rfl
  have e2 : (pySplit line).getD 2 "" = "_" := by rw [hsplit]; rfl
  have e4 : (pySplit line).getD 4 "" = p4 := by rw [hsplit]; rfl
  refine ⟨?_, ?_, ?_⟩
  · intro tok htok
    simp only [parseConllLine, if_pos hlen, e1, e2, e4] at htok
    cases h1 : pyParseInt ((pySplit line).getD 0 "") <;> rw [h1] at htok
    · simp at htok
    · cases h2 : parseHeadField ((pySplit line).getD 6 "") <;> rw [h2] at htok
      · simp at htok
      · cases h3 : parseHeadField ((pySplit line).getD 8 "") <;> rw [h3] at htok
        · simp at htok
        · simp only [Except.ok.injEq] at htok
          subst htok
          simp
  · intro tok htok
    simp only [parseConllLine, if_pos hlen, e1, e2, e4] at htok
    cases h1 : pyParseInt ((pySplit line).getD 0 "") <;> rw [h1] at htok
    · simp at htok
    · cases h2 : parseHeadField ((pySplit line).getD 6 "") <;> rw [h2] at htok
      · simp at htok
      · cases h3 : parseHeadField ((pySplit line).getD 8 "") <;> rw [h3] at htok
        · simp at htok
        · simp only [Except.ok.injEq] at htok
          subst htok
          simp
  · intro lines
    exact read_conll_go_no_lookup g g' lines []

/-- Witness for C4 on a concrete line with placeholder lemma and two
different dictionaries. -/
theorem claim_C4_witness :
    (∀ tok, parseConllLine (fun _ _ => "dog") true
        "1\tdogs\t_\tN\tNNS\t_\t0\tROOT\t_\t_" = Except.ok tok →
      tok.lemma' = Val.str ((fun _ _ => "dog") "dogs" "NNS")) ∧
    (∀ tok, parseConllLine (fun _ _ => "dog") false
        "1\tdogs\t_\tN\tNNS\t_\t0\tROOT\t_\t_" = Except.ok tok →
      tok.lemma' = Val.str "_") ∧
    (∀ lines : List String,
      read_conll (fun _ _ => "dog") false lines =
        read_conll (fun _ _ => "DOG") false lines) :=
  claim_C4_lemma_substitution (fun _ _ => "dog") (fun _ _ => "DOG")
    "1\tdogs\t_\tN\tNNS\t_\t0\tROOT\t_\t_"
    "1" "dogs" "N" "NNS" "_" "0" "ROOT" "_" "_" (by rfl)

/-- The defect condition of one (stripped) record line: not exactly ten
tab-separated fields, or a non-integer `id`, or a `head`/`phead` that is
neither the placeholder nor an integer. -/
def parseBad (s : String) : Prop :=
  (pySplit s).length ≠ 10 ∨
  pyParseInt ((pySplit s).getD 0 "") = none ∨
  ((pySplit s).getD 6 "" ≠ "_" ∧ pyParseInt ((pySplit s).getD 6 "") = none) ∨
  ((pySplit s).getD 8 "" ≠ "_" ∧ pyParseInt ((pySplit s).getD 8 "") = none)

instance (s : String) : Decidable (parseBad s) := by
  unfold parseBad
  infer_instance

/-- The `head`/`phead` conversion fails exactly on a non-placeholder,
non-integer field. -/
theorem parseHeadField_none_iff (s : String) :
    parseHeadField s = none ↔ (s ≠ "_" ∧ pyParseInt s = none) := by
  unfold parseHeadField
  by_cases hs : s = "_"
  · simp [hs]
  · simp [hs]

/-- A successful `head`/`phead` conversion of a non-placeholder field is an
integer. -/
theorem parseHeadField_some_int (s : String) (v : Val) (hne : ¬ s = "_")
    (h : parseHeadField s = some v) :
    ∃ n : Int, v = Val.int n ∧ pyParseInt s = some n := by
  unfold parseHeadField at h
  rw [if_neg hne] at h
  rcases Option.map_eq_some'.mp h with ⟨n, hn, hv⟩
  exact ⟨n, hv.symm, hn⟩

/-- A defective line makes the loop body fail with the error carrying the
line. -/
theorem parseConllLine_error_of_bad (g : String → String → String) (lk : Bool)
    (s : String) (h : parseBad s) :
    parseConllLine g lk s = Except.error ⟨s⟩ := by
  simp only [parseConllLine]
  by_cases hlen : (pySplit s).length = 10
  · simp only [if_pos hlen]
    rcases h1 : pyParseInt ((pySplit s).getD 0 "") with _ | n
    · rfl
    · rcases h2 : parseHeadField ((pySplit s).getD 6 "") with _ | v6
      · rfl
      · rcases h3 : parseHeadField ((pySplit s).getD 8 "") with _ | v8
        · rfl
        · exfalso
          rcases h with h | h | ⟨hne, h⟩ | ⟨hne, h⟩
          · exact h hlen
          · rw [h1] at h
            exact Option.noConfusion h
          · have h6 := (parseHeadField_none_iff ((pySplit s).getD 6 "")).mpr ⟨hne, h⟩
            rw [h2] at h6
            exact Option.noConfusion h6
          · have h8 := (parseHeadField_none_iff ((pySplit s).getD 8 "")).mpr ⟨hne, h⟩
            rw [h3] at h8
            exact Option.noConfusion h8
  · simp only [if_neg hlen]

/-- A non-defective line makes the loop body succeed. -/
theorem parseConllLine_ok_of_good (g : String → String → String) (lk : Bool)
    (s : String) (h : ¬ parseBad s) :
    ∃ tok, parseConllLine g lk s = Except.ok tok := by
  unfold parseBad at h
  push_neg at h
  obtain ⟨hlen, hid, h6, h8⟩ := h
  simp only [parseConllLine, if_pos hlen]
  rcases hv0 : pyParseInt ((pySplit s).getD 0 "") with _ | n
  · exact absurd hv0 hid
  · rcases hv6 : parseHeadField ((pySplit s).getD 6 "") with _ | v6
    · obtain ⟨hne, hnone⟩ := (parseHeadField_none_iff _).mp hv6
      exact absurd hnone (h6 hne)
    · rcases hv8 : parseHeadField ((pySplit s).getD 8 "") with _ | v8
      · obtain ⟨hne, hnone⟩ := (parseHeadField_none_iff _).mp hv8
        exact absurd hnone (h8 hne)
      · exact ⟨_, rfl⟩

/-- On a successfully parsed line, `id` is the parsed integer and
`head`/`phead` are parsed integers exactly when they differ from the
placeholder. -/
theorem parseConllLine_fields (g : String → String → String) (lk : Bool)
    (s : String) (tok : ConllToken) (h : parseConllLine g lk s = Except.ok tok) :
    (∃ n : Int, tok.id = Val.int n ∧
      pyParseInt ((pySplit s).getD 0 "") = some n) ∧
    (if (pySplit s).getD 6 "" = "_" then tok.head = Val.str "_"
     else ∃ n : Int, tok.head = Val.int n ∧
       pyParseInt ((pySplit s).getD 6 "") = some n) ∧
    (if (pySplit s).getD 8 "" = "_" then tok.phead = Val.str "_"
     else ∃ n : Int, tok.phead = Val.int n ∧
       pyParseInt ((pySplit s).getD 8 "") = some n) := by
  simp only [parseConllLine] at h
  by_cases hlen : (pySplit s).length = 10
  swap
  · rw [if_neg hlen] at h
    exact Except.noConfusion h
  rw [if_pos hlen] at h
  rcases hv0 : pyParseInt ((pySplit s).getD 0 "") with _ | n <;> rw [hv0] at h
  · exact Except.noConfusion h
  rcases hv6 : parseHeadField ((pySplit s).getD 6 "") with _ | v6 <;> rw [hv6] at h
  · exact Except.noConfusion h
  rcases hv8 : parseHeadField ((pySplit s).getD 8 "") with _ | v8 <;> rw [hv8] at h
  · exact Except.noConfusion h
  injection h with h'
  subst h'
  refine ⟨⟨n, rfl, rfl⟩, ?_, ?_⟩
  · by_cases h6p : (pySplit s).getD 6 "" = "_"
    · rw [if_pos h6p]
      rw [h6p] at hv6
      injection hv6 with hv
      exact hv.symm
    · rw [if_neg h6p]
      obtain ⟨m, hv, hp⟩ := parseHeadField_some_int _ _ h6p hv6
      exact ⟨m, hv, hp⟩
  · by_cases h8p : (pySplit s).getD 8 "" = "_"
    · rw [if_pos h8p]
      rw [h8p] at hv8
      injection hv8 with hv
      exact hv.symm
    · rw [if_neg h8p]
      obtain ⟨m, hv, hp⟩ := parseHeadField_some_int _ _ h8p hv8
      exact ⟨m, hv, hp⟩

/-- `read_conll` on one non-blank line is the result of parsing that line. -/
theorem read_conll_single (g : String → String → String) (lk : Bool)
    (line : String) (hnb : ¬ pyStrip line = "") :
    read_conll g lk [line] =
      match parseConllLine g lk (pyStrip line) with
      | Except.ok tok => Except.ok [[tok]]
      | Except.error e => Except.error e := by
  rcases hp : parseConllLine g lk (pyStrip line) with e | tok <;>
    simp [read_conll, read_conll_go, hnb, hp]

/-- Claim C7: on a non-blank line, `read_conll` fails with a
`MalformedRecordError` carrying the offending (stripped) line exactly when
the line does not split into ten tab-separated fields, or its `id` is not an
integer, or its `head`/`phead` is neither the placeholder nor an integer;
on a well-formed line it succeeds, `id` is parsed to an integer, and
`head`/`phead` are parsed to integers exactly when they differ from the
placeholder (a placeholder is kept as the string `"_"`). -/
theorem claim_C7_malformed_records (g : String → String → String) (lk : Bool)
    (line : String) (hnb : ¬ pyStrip line = "") :
    (parseBad (pyStrip line) →
      read_conll g lk [line] = Except.error ⟨pyStrip line⟩) ∧
    (¬ parseBad (pyStrip line) →
      ∃ tok, read_conll g lk [line] = Except.ok [[tok]] ∧
        parseConllLine g lk (pyStrip line) = Except.ok tok) ∧
    (∀ tok, parseConllLine g lk (pyStrip line) = Except.ok tok →
      (∃ n : Int, tok.id = Val.int n ∧
        pyParseInt ((pySplit (pyStrip line)).getD 0 "") = some n) ∧
      (if (pySplit (pyStrip line)).getD 6 "" = "_" then tok.head = Val.str "_"
       else ∃ n : Int, tok.head = Val.int n ∧
         pyParseInt ((pySplit (pyStrip line)).getD 6 "") = some n) ∧
      (if (pySplit (pyStrip line)).getD 8 "" = "_" then tok.phead = Val.str "_"
       else ∃ n : Int, tok.phead = Val.int n ∧
         pyParseInt ((pySplit (pyStrip line)).getD 8 "") = some n)) := by
  refine ⟨?_, ?_, ?_⟩
  · intro hbad
    rw [read_conll_single g lk line hnb, parseConllLine_error_of_bad g lk _ hbad]
  · intro hgood
    obtain ⟨tok, htok⟩ := parseConllLine_ok_of_good g lk _ hgood
    refine ⟨tok, ?_, htok⟩
    rw [read_conll_single g lk line hnb, htok]
  · intro tok htok
    exact parseConllLine_fields g lk _ tok htok

/-- Witness for C7: a line with a non-integer head fails with the error
carrying the stripped line. -/
theorem claim_C7_witness :
    read_conll (fun _ _ => "L") false ["1\ta\t_\tA\tA\t_\tx\tROOT\t_\t_"] =
      Except.error ⟨pyStrip "1\ta\t_\tA\tA\t_\tx\tROOT\t_\t_"⟩ :=
  (claim_C7_malformed_records (fun _ _ => "L") false
    "1\ta\t_\tA\tA\t_\tx\tROOT\t_\t_" (by decide)).1 (by decide)
